import Mathlib

/-!
Verification of the format-tree-driven code generator
(`onlinejudge_template/library/cplusplus.py` and the orchestration in
`onlinejudge_contest/main.py`) against its natural-language specification.

The Python code is shallowly embedded: pure functions become Lean
functions, the mutable `declared` set becomes explicit state passing,
Python `assert False` becomes `Except.error "AssertionError"`, and the
mixed string/callable style-option values become the `StyleOpt` sum.
-/

set_option maxHeartbeats 1000000

/-- The format AST (`onlinejudge_template.types.FormatNode` with subclasses
`ItemNode`, `NewlineNode`, `SequenceNode`, `LoopNode`). -/
inductive FormatNode where
  | item (name : String) (indices : List String)
  | newline
  | seq (items : List FormatNode)
  | loop (name : String) (size : String) (body : FormatNode)
deriving Repr

/-- A style-configuration option value as the Python code dispatches on it:
absent/`None`, a string token, a callable hook, or any other object
(which every emitter rejects with `assert False`). -/
inductive StyleOpt (α : Type) where
  | none
  | str (s : String)
  | hook (f : α)
  | other

/-- The `data['config']` dictionary, restricted to the keys the generator
reads.  The Python key `rep_macro` is spelled `repMacro` here. -/
structure Config where
  scanner : StyleOpt (String → String)
  printer : StyleOpt (String → String)
  repMacro : StyleOpt (String → String → String)
  indent : Option String
  using_namespace_std : Option Bool

/-- Python `s.startswith(pre)`: `pre` is a prefix of the character
sequence of `s`. -/
def pyStartsWith (s pre : String) : Bool :=
  pre.data.isPrefixOf s.data

/-- Python `s.endswith(post)`: `post` is a suffix of the character
sequence of `s`. -/
def pyEndsWith (s post : String) : Bool :=
  post.data.isSuffixOf s.data

/-- Python `s * n` for an `int` `n`: `n` copies of `s`, the empty string
when `n ≤ 0`. -/
def pyStrMul (s : String) (n : Int) : String :=
  String.join (List.replicate n.toNat s)

/-- `_get_std(data)`: the `std::` qualifier, empty when
`using_namespace_std` is absent or truthy. -/
def _get_std (cfg : Config) : String :=
  match cfg.using_namespace_std with
  | Option.none => ""
  | some true => ""
  | some false => "std::"

/-- `_declare_loop(var, size, data)`: the loop header selected by the
`rep_macro` option. -/
def _declare_loop (cfg : Config) (var size : String) : Except String String :=
  match cfg.repMacro with
  | .none => .ok ("for (int " ++ var ++ " = 0; " ++ var ++ " < " ++ size ++ "; ++" ++ var ++ ")")
  | .str rep => .ok (rep ++ " (" ++ var ++ ", " ++ size ++ ")")
  | .hook rep => .ok (rep var size)
  | .other => .error "AssertionError"

/-- `_read_int(var, data)`: the read statement selected by the `scanner`
option. -/
def _read_int (cfg : Config) (var : String) : Except String String :=
  match cfg.scanner with
  | .none => .ok ("scanf(\"%d\", &" ++ var ++ ");")
  | .str s =>
    if s = "scanf" then .ok ("scanf(\"%d\", &" ++ var ++ ");")
    else if s = "cin" ∨ s = "std::cin" then .ok (_get_std cfg ++ "cin >> " ++ var ++ ";")
    else .error "AssertionError"
  | .hook f => .ok (f var)
  | .other => .error "AssertionError"

/-- `_write_int(var, data)`: the write statement selected by the `printer`
option.  Note the source tests `printer == 'scanf'`, not `'printf'`. -/
def _write_int (cfg : Config) (var : String) : Except String String :=
  match cfg.printer with
  | .none => .ok ("printf(\"%d\\n\", &" ++ var ++ ");")
  | .str s =>
    if s = "scanf" then .ok ("printf(\"%d\\n\", &" ++ var ++ ");")
    else if s = "cout" ∨ s = "std::cout" then
      .ok (_get_std cfg ++ "cout << " ++ var ++ " << " ++ _get_std cfg ++ "endl;")
    else .error "AssertionError"
  | .hook f => .ok (f var)
  | .other => .error "AssertionError"

/-- `_declare_variable(name, dims, data)`: a nested `vector` declaration,
built by iterating over `reversed(dims)` carrying the pair
`(type, ctor)`. -/
def _declare_variable (cfg : Config) (name : String) (dims : List String) : String :=
  let tc := dims.reverse.foldl
    (fun (tc : String × String) dim =>
      (_get_std cfg ++ "vector<" ++ tc.1 ++ ">",
       "(" ++ dim ++ ", " ++ tc.1 ++ "(" ++ tc.2 ++ "))"))
    ("int", "")
  tc.1 ++ " " ++ name ++ tc.2 ++ ";"

/-- The fully indexed path `var[i][j]…` an `ItemNode` reads into. -/
def indexedVar (name : String) (indices : List String) : String :=
  indices.foldl (fun v index => v ++ "[" ++ index ++ "]") name

/-- The read statement `_read_input_dfs` yields for an item (the source
hard-codes this string instead of calling `_read_int`). -/
def readLine (name : String) (indices : List String) : String :=
  "scanf(\"%d\", &" ++ indexedVar name indices ++ ");"

mutual
/-- `_read_input_dfs(node, declared, dims, data)`: the input-reading
traversal.  The mutable `declared` set is threaded explicitly; the result
is the yielded lines together with the final `declared`. -/
def _read_input_dfs (cfg : Config) (dims : String → List String) :
    FormatNode → List String → Except String (List String × List String)
  | .item name indices, declared =>
    if name ∈ declared then
      .ok ([readLine name indices], declared)
    else
      .ok ([_declare_variable cfg name (dims name), readLine name indices],
           declared ++ [name])
  | .newline, declared => .ok ([], declared)
  | .seq items, declared => readInputDfsList cfg dims items declared
  | .loop name size body, declared => do
    let header ← _declare_loop cfg name size
    let (bodyLines, declared') ← _read_input_dfs cfg dims body declared
    .ok ((header ++ " \x7b") :: bodyLines ++ ["\x7d"], declared')

/-- The `SequenceNode` arm of `_read_input_dfs`: children in order,
threading `declared`. -/
def readInputDfsList (cfg : Config) (dims : String → List String) :
    List FormatNode → List String → Except String (List String × List String)
  | [], declared => .ok ([], declared)
  | node :: rest, declared => do
    let (lines₁, declared₁) ← _read_input_dfs cfg dims node declared
    let (lines₂, declared₂) ← readInputDfsList cfg dims rest declared₁
    .ok (lines₁ ++ lines₂, declared₂)
end

/-- `_join_with_indent(lines, nest, data)`: the per-line indenting loop.
The counter decrements before prefixing on a line starting with `}` and
increments after prefixing on a line ending with `{`. -/
def indentLines (indent : String) : List String → Int → List String
  | [], _ => []
  | line :: rest, nest =>
    let nest' := if pyStartsWith line "\x7d" then nest - 1 else nest
    (pyStrMul indent nest' ++ line) ::
      indentLines indent rest (if pyEndsWith line "\x7b" then nest' + 1 else nest')

/-- `_join_with_indent`: despite receiving `nest`, the source immediately
reassigns `nest = 1`, so the passed value is ignored. -/
def _join_with_indent (cfg : Config) (lines : List String) (nest : Int) : String :=
  let _ := nest
  String.intercalate "\n" (indentLines (cfg.indent.getD "    ") lines 1)

mutual
/-- Modelled from the spec: `onlinejudge_template.library.common.list_used_items`
(the Dimension Inference component, `library/common.py`, absent from the
sources).  Per §4.1 it traverses the tree accumulating the enclosing
`Loop` sizes and records, at the first occurrence of each `Item` name, the
accumulated list as that variable's dimensions; first occurrence wins and
the table keeps first-appearance order. -/
def listUsedItemsGo (env : List String) (acc : List (String × List String)) :
    FormatNode → List (String × List String)
  | .item name _ =>
    if acc.any (fun p => p.1 = name) then acc else acc ++ [(name, env)]
  | .newline => acc
  | .seq items => listUsedItemsGoList env acc items
  | .loop _ size body => listUsedItemsGo (env ++ [size]) acc body

/-- Modelled from the spec: the `Sequence` arm of the dimension-inference
traversal, children left to right. -/
def listUsedItemsGoList (env : List String) (acc : List (String × List String)) :
    List FormatNode → List (String × List String)
  | [] => acc
  | node :: rest => listUsedItemsGoList env (listUsedItemsGo env acc node) rest
end

/-- Modelled from the spec: `common.list_used_items(node)` starts with an
empty environment and an empty table. -/
def list_used_items (node : FormatNode) : List (String × List String) :=
  listUsedItemsGo [] [] node

/-- Dictionary lookup `dims[name]` for the table `list_used_items`
produces (every name passed by `_read_input_dfs` is present). -/
def lookupDims (table : List (String × List String)) (name : String) : List String :=
  ((table.find? (fun p => p.1 = name)).map Prod.snd).getD []

/-- `read_input(data, nest)`: dimension inference, traversal, then
indentation. -/
def read_input (cfg : Config) (input : FormatNode) (nest : Int) : Except String String := do
  let dims := lookupDims (list_used_items input)
  let (lines, _) ← _read_input_dfs cfg dims input []
  .ok (_join_with_indent cfg lines nest)

/-- `write_output(data, nest)`: a single write statement for the
hard-wired variable `ans`, then indentation. -/
def write_output (cfg : Config) (nest : Int) : Except String String := do
  let line ← _write_int cfg "ans"
  .ok (_join_with_indent cfg [line] nest)

/-- `arguments_types(data)`: one parameter fragment per variable of the
dimension table, comma-joined. -/
def arguments_types (cfg : Config) (input : FormatNode) : String :=
  String.intercalate ", "
    ((list_used_items input).map (fun p =>
      let type := p.2.reverse.foldl (fun t _ => _get_std cfg ++ "vector<" ++ t ++ ">") "int"
      let type := if p.2 ≠ [] then "const " ++ type ++ " &" else type
      type ++ " " ++ p.1))

/-- `arguments(data)`: the comma-joined variable names of the dimension
table. -/
def arguments (cfg : Config) (input : FormatNode) : String :=
  let _ := cfg
  String.intercalate ", " ((list_used_items input).map Prod.fst)

/-- `return_type(data)`. -/
def return_type (cfg : Config) : String :=
  let _ := cfg
  "auto"

/-- Python exception kinds that `prepare_problem` (in
`onlinejudge_contest/main.py`) distinguishes with its `except` clauses. -/
inductive PyError where
  | analyzerError (msg : String)
  | notImplementedError (msg : String)
  | otherError (msg : String)
deriving Repr, DecidableEq

/-- The analysis block of `prepare_problem`: `AnalyzerError` and
`NotImplementedError` are caught and logged, leaving the node `None`; any
other exception propagates. -/
def analyzeStep (result : Except PyError FormatNode) : Except PyError (Option FormatNode) :=
  match result with
  | .ok node => .ok (some node)
  | .error (.analyzerError _) => .ok Option.none
  | .error (.notImplementedError _) => .ok Option.none
  | .error (.otherError m) => .error (.otherError m)

/-- The generation block of `prepare_problem`: only `NotImplementedError`
is caught (`continue`, so the file is skipped); every other exception
propagates.  The byte output handed to the writer is abstracted as a
`Nat`. -/
def generateStep (gen : Option FormatNode → Option FormatNode → Except PyError Nat)
    (i o : Option FormatNode) : Except PyError (Option Nat) :=
  match gen i o with
  | .ok code => .ok (some code)
  | .error (.notImplementedError _) => .ok Option.none
  | .error e => .error e

/-- One iteration of `prepare_problem`'s per-template loop: analyze the
input format, analyze the output format, then generate. -/
def processTemplate (analyzeIn analyzeOut : Except PyError FormatNode)
    (gen : Option FormatNode → Option FormatNode → Except PyError Nat) :
    Except PyError (Option Nat) := do
  let i ← analyzeStep analyzeIn
  let o ← analyzeStep analyzeOut
  generateStep gen i o

/-- `prepare_problem`'s loop over the configured templates, pairing each
template with the file content written for it (`none` when the template
was skipped).  An uncaught exception aborts the remaining templates. -/
def prepare_problem (analyzeIn analyzeOut : Except PyError FormatNode)
    (gen : String → Option FormatNode → Option FormatNode → Except PyError Nat) :
    List String → Except PyError (List (String × Option Nat))
  | [] => .ok []
  | t :: ts => do
    let code ← processTemplate analyzeIn analyzeOut (gen t)
    let rest ← prepare_problem analyzeIn analyzeOut gen ts
    .ok ((t, code) :: rest)

/-- A configuration with every option absent (the defaults). -/
def cfgDefault : Config := ⟨.none, .none, .none, Option.none, Option.none⟩

/-- Default style except `scanner="cin"`. -/
def cfgCin : Config := ⟨.str "cin", .none, .none, Option.none, Option.none⟩

/-- Default style except `printer="printf"` (the value the spec documents
as the default token). -/
def cfgPrintf : Config := ⟨.none, .str "printf", .none, Option.none, Option.none⟩

/-- Default style except `rep_macro="REP"`. -/
def cfgREP : Config := ⟨.none, .none, .str "REP", Option.none, Option.none⟩

/-- Default style except a callable `rep_macro` hook. -/
def cfgRepHook : Config :=
  ⟨.none, .none, .hook (fun v s => "FOR(" ++ v ++ ";" ++ s ++ ")"), Option.none, Option.none⟩

/-- A `rep_macro` value that is neither `None` nor a string nor callable. -/
def cfgRepBad : Config := ⟨.none, .none, .other, Option.none, Option.none⟩

/-- A `scanner` string that is none of `"scanf"`, `"cin"`, `"std::cin"`. -/
def cfgScanBad : Config := ⟨.str "iostream", .none, .none, Option.none, Option.none⟩

/-- A `printer` string that is none of the strings `_write_int` accepts. -/
def cfgPrintBad : Config := ⟨.none, .str "puts", .none, Option.none, Option.none⟩





/-- If the character sequence of `s` ends in a character other than `{`,
Python `s.endswith('{')` is false. -/
theorem pyEndsWith_false_of_getLast (s : String) (c : Char) (hc : c ≠ '{')
    (h : s.data.getLast? = some c) : pyEndsWith s "\x7b" = false := by
  have hdata : ("\x7b" : String).data = ['{'] := rfl
  simp only [pyEndsWith, hdata]
  rw [Bool.eq_false_iff]
  intro hsuf
  rw [List.isSuffixOf_iff_suffix] at hsuf
  obtain ⟨t, ht⟩ := hsuf
  rw [← ht, List.getLast?_concat] at h
  exact hc (Option.some.inj h).symm

/-- The character sequence of `A ++ lit` ends in the single character of
`lit`. -/
theorem getLast_data_append (A : String) (lit : String) (c : Char) (h : lit.data = [c]) :
    (A ++ lit).data.getLast? = some c := by
  rw [String.data_append, h]
  exact List.getLast?_concat _

/-- A `rep_macro` value that is neither absent, a string token, nor
callable. -/
def repUnsupported : StyleOpt (String → String → String) → Prop
  | .other => True
  | _ => False

/-- A `scanner` value that is neither absent, a recognized token, nor
callable. -/
def scannerUnsupported : StyleOpt (String → String) → Prop
  | .str s => ¬(s = "scanf" ∨ s = "cin" ∨ s = "std::cin")
  | .other => True
  | _ => False

/-- A `printer` value that is neither absent, a recognized token, nor
callable. -/
def printerUnsupported : StyleOpt (String → String) → Prop
  | .str s => ¬(s = "scanf" ∨ s = "cout" ∨ s = "std::cout")
  | .other => True
  | _ => False

/-- An unsupported `rep_macro` makes the loop-header emitter fail. -/
theorem declare_loop_unsupported (cfg : Config) (var size : String)
    (h : repUnsupported cfg.repMacro) : _declare_loop cfg var size = .error "AssertionError" := by
  unfold _declare_loop
  cases hr : cfg.repMacro <;> simp [repUnsupported, hr] at h ⊢

/-- An unsupported `scanner` makes the read emitter fail. -/
theorem read_int_unsupported (cfg : Config) (var : String)
    (h : scannerUnsupported cfg.scanner) : _read_int cfg var = .error "AssertionError" := by
  unfold _read_int
  cases hs : cfg.scanner with
  | str s =>
    rw [hs] at h
    simp only [scannerUnsupported, not_or] at h
    obtain ⟨ha, hb, hc⟩ := h
    simp [ha, hb, hc]
  | _ => rw [hs] at h <;> simp [scannerUnsupported] at h ⊢

/-- An unsupported `printer` makes the write emitter fail. -/
theorem write_int_unsupported (cfg : Config) (var : String)
    (h : printerUnsupported cfg.printer) : _write_int cfg var = .error "AssertionError" := by
  unfold _write_int
  cases hp : cfg.printer with
  | str s =>
    rw [hp] at h
    simp only [printerUnsupported, not_or] at h
    obtain ⟨ha, hb, hc⟩ := h
    simp [ha, hb, hc]
  | _ => rw [hp] at h <;> simp [printerUnsupported] at h ⊢

/-- C1 (code bug): with `scanner="cin"` the traversal still emits a
`scanf` read for the item — `_read_input_dfs` hard-codes the formatted
scan and never consults `_read_int`, which does implement the
stream-extraction strategy the claim describes. -/
theorem C1_traversal_ignores_scanner :
    _read_input_dfs cfgCin (fun _ => []) (.seq [.item "n" []]) []
      = .ok (["int n;", "scanf(\"%d\", &n);"], ["n"]) ∧
    _read_int cfgCin "n" = .ok "cin >> n;" ∧
    ("scanf(\"%d\", &n);" : String) ≠ "cin >> n;" :=
  ⟨rfl, rfl, by decide⟩

/-- C2 (code bug): the indenter receives the start depth `nest` but
immediately reassigns it to `1`, so a start depth of `2` still produces a
single copy of the unit before a plain line. -/
theorem C2_start_depth_ignored :
    _join_with_indent cfgDefault ["x"] 2 = "    x" ∧
    ("    x" : String) ≠ "        x" :=
  ⟨rfl, by decide⟩

/-- C3 (code bug): `_write_int` tests `printer == 'scanf'` instead of
`'printf'`, so the documented token `"printf"` hits `assert False` and
`write_output` fails, while the unset default does emit the formatted
print. -/
theorem C3_printf_token_rejected :
    _write_int cfgPrintf "ans" = .error "AssertionError" ∧
    write_output cfgPrintf 1 = .error "AssertionError" ∧
    _write_int cfgDefault "ans" = .ok "printf(\"%d\\n\", &ans);" :=
  ⟨rfl, rfl, rfl⟩

/-- C4: a `rep_macro`/`scanner`/`printer` value that is neither a token
the emitter recognizes nor a callable hook makes the emitter raise
`AssertionError` the first time it is used, and a pass that uses it
(`_read_input_dfs` over a loop, `write_output`) fails with no output. -/
theorem C4_unsupported_style_option (c₁ c₂ c₃ : Config) (var size : String)
    (h₁ : repUnsupported c₁.repMacro)
    (h₂ : scannerUnsupported c₂.scanner)
    (h₃ : printerUnsupported c₃.printer) :
    _declare_loop c₁ var size = .error "AssertionError" ∧
    _read_int c₂ var = .error "AssertionError" ∧
    _write_int c₃ var = .error "AssertionError" ∧
    _read_input_dfs c₁ (fun _ => []) (.loop "i" "n" (.item "a" ["i"])) [] = .error "AssertionError" ∧
    write_output c₃ 1 = .error "AssertionError" := by
  have hA : _declare_loop c₁ "i" "n" = .error "AssertionError" :=
    declare_loop_unsupported c₁ "i" "n" h₁
  have hC : _write_int c₃ "ans" = .error "AssertionError" :=
    write_int_unsupported c₃ "ans" h₃
  refine ⟨declare_loop_unsupported c₁ var size h₁, read_int_unsupported c₂ var h₂,
    write_int_unsupported c₃ var h₃, ?_, ?_⟩
  · simp [_read_input_dfs, hA, Bind.bind, Except.bind]
  · simp [write_output, hC, Bind.bind, Except.bind]

/-- Witness for C4 at concrete unsupported option values. -/
theorem C4_unsupported_style_option_witness :
    _declare_loop cfgRepBad "x" "n" = .error "AssertionError" ∧
    _read_int cfgScanBad "x" = .error "AssertionError" ∧
    _write_int cfgPrintBad "x" = .error "AssertionError" ∧
    _read_input_dfs cfgRepBad (fun _ => []) (.loop "i" "n" (.item "a" ["i"])) [] = .error "AssertionError" ∧
    write_output cfgPrintBad 1 = .error "AssertionError" :=
  C4_unsupported_style_option cfgRepBad cfgScanBad cfgPrintBad "x" "n"
    trivial
    (show ¬("iostream" = "scanf" ∨ "iostream" = "cin" ∨ "iostream" = "std::cin") by decide)
    (show ¬("puts" = "scanf" ∨ "puts" = "cout" ∨ "puts" = "std::cout") by decide)

/-- C6 counterexample: with `rep_macro="REP"` the emitted loop header is
`REP (i, n)` — with a space before the argument list — not the claimed
`REP(i, n)`. -/
theorem C6_macro_space_counterexample :
    _declare_loop cfgREP "i" "n" = .ok "REP (i, n)" ∧
    ("REP (i, n)" : String) ≠ "REP(i, n)" :=
  ⟨rfl, by decide⟩

/-- C6 amended: the loop-header emitter selects among exactly three
strategies by the kind of `rep_macro`: unset gives the explicit counted
loop from 0 to the size exclusive; a string token `M` gives the macro
invocation `M (v, s)` (a space before the parenthesis) without a
self-emitted opening brace; a callable gives the hook applied to
`(v, s)`. -/
theorem C6_amended_rep_macro_strategies (cfg : Config) (var size : String) :
    (cfg.repMacro = .none →
      _declare_loop cfg var size
        = .ok ("for (int " ++ var ++ " = 0; " ++ var ++ " < " ++ size ++ "; ++" ++ var ++ ")")) ∧
    (∀ M, cfg.repMacro = .str M →
      _declare_loop cfg var size = .ok (M ++ " (" ++ var ++ ", " ++ size ++ ")") ∧
      pyEndsWith (M ++ " (" ++ var ++ ", " ++ size ++ ")") "\x7b" = false) ∧
    (∀ f, cfg.repMacro = .hook f → _declare_loop cfg var size = .ok (f var size)) := by
  refine ⟨fun h => by simp [_declare_loop, h],
    fun M h => ⟨by simp [_declare_loop, h], ?_⟩,
    fun f h => by simp [_declare_loop, h]⟩
  exact pyEndsWith_false_of_getLast _ ')' (by decide) (getLast_data_append _ ")" ')' rfl)

/-- Witness for C6 exercising all three strategies at concrete inputs. -/
theorem C6_amended_rep_macro_strategies_witness :
    _declare_loop cfgDefault "i" "n" = .ok "for (int i = 0; i < n; ++i)" ∧
    (_declare_loop cfgREP "i" "n" = .ok "REP (i, n)" ∧
      pyEndsWith "REP (i, n)" "\x7b" = false) ∧
    _declare_loop cfgRepHook "i" "n" = .ok "FOR(i;n)" :=
  ⟨(C6_amended_rep_macro_strategies cfgDefault "i" "n").1 rfl,
   (C6_amended_rep_macro_strategies cfgREP "i" "n").2.1 "REP" rfl,
   (C6_amended_rep_macro_strategies cfgRepHook "i" "n").2.2
     (fun v s => "FOR(" ++ v ++ ";" ++ s ++ ")") rfl⟩

/-- C9 counterexample: a generator failure that is not
`NotImplementedError` is not caught — `prepare_problem` aborts instead of
skipping the file and continuing; and with a failed input analysis
(missing AST) generation is still attempted and its output written, not
skipped. -/
theorem C9_counterexample_uncaught_failure :
    prepare_problem (.ok (.item "n" [])) (.ok (.item "n" []))
        (fun _ _ _ => .error (.otherError "AssertionError")) ["main.cpp", "generate.py"]
      = .error (.otherError "AssertionError") ∧
    (Except.error (PyError.otherError "AssertionError")
        : Except PyError (List (String × Option Nat)))
      ≠ .ok [("main.cpp", Option.none), ("generate.py", Option.none)] ∧
    processTemplate (.error (.analyzerError "input analyzer failed")) (.ok (.item "n" []))
        (fun _ _ => .ok 7) = .ok (some 7) :=
  ⟨rfl, by simp, rfl⟩

/-- C9 amended: the orchestration layer catches `NotImplementedError`
from the generator (skips the file, continues with remaining templates);
any other generator failure propagates and aborts the remaining
templates; a failed analysis is caught and leaves a missing AST, with
which generation is still attempted. -/
theorem C9_amended_catch_policy (t : String) (ts : List String) (i o : FormatNode)
    (gen₁ gen₂ : String → Option FormatNode → Option FormatNode → Except PyError Nat)
    (m₁ m₂ m₃ : String)
    (h₁ : gen₁ t (some i) (some o) = .error (.notImplementedError m₁))
    (h₂ : gen₂ t (some i) (some o) = .error (.otherError m₂)) :
    prepare_problem (.ok i) (.ok o) gen₁ (t :: ts)
      = (prepare_problem (.ok i) (.ok o) gen₁ ts).map (fun rest => (t, Option.none) :: rest) ∧
    prepare_problem (.ok i) (.ok o) gen₂ (t :: ts) = .error (.otherError m₂) ∧
    analyzeStep (.error (.analyzerError m₃)) = .ok Option.none ∧
    processTemplate (.error (.analyzerError m₃)) (.ok o) (gen₁ t)
      = generateStep (gen₁ t) Option.none (some o) := by
  refine ⟨?_, ?_, rfl, rfl⟩
  · cases hrest : prepare_problem (.ok i) (.ok o) gen₁ ts <;>
      simp [prepare_problem, processTemplate, analyzeStep, generateStep, h₁, hrest,
        Bind.bind, Except.bind, Except.map]
  · simp [prepare_problem, processTemplate, analyzeStep, generateStep, h₂,
      Bind.bind, Except.bind]

/-- Witness for C9 at a concrete template list and generators. -/
theorem C9_amended_catch_policy_witness :
    prepare_problem (.ok (.item "n" [])) (.ok (.item "n" []))
        (fun _ _ _ => .error (.notImplementedError "x")) ["main.cpp", "generate.py"]
      = (prepare_problem (.ok (.item "n" [])) (.ok (.item "n" []))
          (fun _ _ _ => .error (.notImplementedError "x")) ["generate.py"]).map
          (fun rest => ("main.cpp", Option.none) :: rest) ∧
    prepare_problem (.ok (.item "n" [])) (.ok (.item "n" []))
        (fun _ _ _ => .error (.otherError "y")) ["main.cpp", "generate.py"]
      = .error (.otherError "y") ∧
    analyzeStep (.error (.analyzerError "z")) = .ok Option.none ∧
    processTemplate (.error (.analyzerError "z")) (.ok (.item "n" []))
        ((fun _ _ _ => .error (.notImplementedError "x")) "main.cpp")
      = generateStep ((fun _ _ _ => .error (.notImplementedError "x")) "main.cpp")
          Option.none (some (.item "n" [])) :=
  C9_amended_catch_policy "main.cpp" ["generate.py"] (.item "n" []) (.item "n" [])
    (fun _ _ _ => .error (.notImplementedError "x"))
    (fun _ _ _ => .error (.otherError "y")) "x" "y" "z" rfl rfl

/-- A configuration using stream read/write so that every emitter that can
name a standard-library identifier does. -/
def cfgStd (u : Option Bool) : Config :=
  ⟨.str "cin", .str "cout", .none, Option.none, u⟩

/-- C10: `cin`, `cout`, `endl` and the `vector` container in declarations
and signatures are prefixed with `std::` exactly when
`using_namespace_std` is present and false; absent or true leaves them
unqualified. -/
theorem C10_namespace_qualifier (u : Option Bool) (var : String) :
    (_get_std (cfgStd u) = "std::" ↔ u = some false) ∧
    (_get_std (cfgStd u) = "" ↔ u ≠ some false) ∧
    _read_int (cfgStd u) var = .ok (_get_std (cfgStd u) ++ "cin >> " ++ var ++ ";") ∧
    _write_int (cfgStd u) var
      = .ok (_get_std (cfgStd u) ++ "cout << " ++ var ++ " << " ++ _get_std (cfgStd u) ++ "endl;") ∧
    _declare_variable (cfgStd u) "a" ["n"] = _get_std (cfgStd u) ++ "vector<int> a(n, int());" ∧
    arguments_types (cfgStd u) (.loop "i" "n" (.item "a" ["i"]))
      = "const " ++ _get_std (cfgStd u) ++ "vector<int> & a" := by
  rcases u with _ | b
  · exact ⟨by decide, by decide, rfl, rfl, rfl, rfl⟩
  · cases b
    · exact ⟨by decide, by decide, rfl, rfl, rfl, rfl⟩
    · exact ⟨by decide, by decide, rfl, rfl, rfl, rfl⟩

/-- The container type with `d` nesting levels around the scalar type,
as the Signature Builder's contract describes it. -/
def vecType (std : String) : Nat → String
  | 0 => "int"
  | d + 1 => std ++ "vector<" ++ vecType std d ++ ">"

/-- Follows the spec's words (§4.4): a zero-dimension variable passes by
value with the scalar type; a variable with `d ≥ 1` dimensions passes by
read-only (const) reference to the container type nested exactly `d`
levels deep. -/
def specParamFragment (cfg : Config) (p : String × List String) : String :=
  if p.2.length = 0 then "int " ++ p.1
  else "const " ++ vecType (_get_std cfg) p.2.length ++ " & " ++ p.1

/-- The type component of a fold that wraps once per list element is the
wrapping function iterated `length` times. -/
theorem foldl_wrap_eq_iterate (std : String) (l : List String) (t : String) :
    l.foldl (fun t _ => std ++ "vector<" ++ t ++ ">") t
      = (fun t => std ++ "vector<" ++ t ++ ">")^[l.length] t := by
  induction l generalizing t with
  | nil => rfl
  | cons x xs ih => simp only [List.foldl_cons, List.length_cons, ih,
      Function.iterate_succ_apply]

/-- `vecType` is that same iterate starting from the scalar type. -/
theorem vecType_eq_iterate (std : String) (d : Nat) :
    vecType std d = (fun t => std ++ "vector<" ++ t ++ ">")^[d] "int" := by
  induction d with
  | zero => rfl
  | succ n ih => rw [Function.iterate_succ_apply', ← ih]; rfl

/-- Each fragment `arguments_types` builds coincides with the fragment
the spec describes. -/
theorem arguments_types_fragment (cfg : Config) (p : String × List String) :
    (let type := p.2.reverse.foldl (fun t _ => _get_std cfg ++ "vector<" ++ t ++ ">") "int"
     let type := if p.2 ≠ [] then "const " ++ type ++ " &" else type
     type ++ " " ++ p.1) = specParamFragment cfg p := by
  rcases p with ⟨name, dims⟩
  cases dims with
  | nil => rfl
  | cons d ds =>
    show ("const " ++ (d :: ds).reverse.foldl (fun t _ => _get_std cfg ++ "vector<" ++ t ++ ">") "int" ++ " &") ++ " " ++ name
        = specParamFragment cfg (name, d :: ds)
    rw [foldl_wrap_eq_iterate, List.length_reverse, ← vecType_eq_iterate]
    show ("const " ++ vecType (_get_std cfg) (d :: ds).length ++ " &") ++ " " ++ name
        = "const " ++ vecType (_get_std cfg) (d :: ds).length ++ " & " ++ name
    rw [String.append_assoc ("const " ++ vecType (_get_std cfg) (d :: ds).length) " &" " "]
    rfl

/-- C7: the signature builder emits, in first-appearance order, one
parameter fragment per variable of the dimension table — by-value scalar
for zero dimensions, read-only reference to the `d`-level nested
container for `d ≥ 1` — joined by commas; the name list is the
comma-joined table keys. -/
theorem C7_signature_parameter_fragments (cfg : Config) (input : FormatNode) :
    arguments_types cfg input
      = String.intercalate ", " ((list_used_items input).map (specParamFragment cfg)) ∧
    arguments cfg input = String.intercalate ", " ((list_used_items input).map Prod.fst) := by
  refine ⟨?_, rfl⟩
  unfold arguments_types
  congr 1
  exact List.map_congr_left fun p _ => arguments_types_fragment cfg p

/-- If the character sequence of `s` begins with a character other than
`}`, Python `s.startswith('}')` is false. -/
theorem pyStartsWith_false_of_head (s : String) (c : Char) (hc : c ≠ '}')
    (h : s.data.head? = some c) : pyStartsWith s "\x7d" = false := by
  simp only [pyStartsWith]
  rw [Bool.eq_false_iff]
  intro hpre
  rw [List.isPrefixOf_iff_prefix] at hpre
  obtain ⟨t, ht⟩ := hpre
  rw [← ht] at h
  exact hc (Option.some.inj h).symm

/-- Appending ` {` makes a line that Python's `endswith('{')` accepts. -/
theorem header_open (h : String) : pyEndsWith (h ++ " \x7b") "\x7b" = true := by
  simp only [pyEndsWith]
  rw [List.isSuffixOf_iff_suffix]
  refine ⟨(h ++ " ").data, ?_⟩
  rw [String.data_append, String.data_append, List.append_assoc]
  rfl

/-- The type component of `_declare_variable`'s fold is the wrap iterate. -/
theorem declFold_fst (std : String) (l : List String) (t c : String) :
    (l.foldl (fun (tc : String × String) dim =>
        (std ++ "vector<" ++ tc.1 ++ ">", "(" ++ dim ++ ", " ++ tc.1 ++ "(" ++ tc.2 ++ "))"))
      (t, c)).1 = (fun t => std ++ "vector<" ++ t ++ ">")^[l.length] t := by
  induction l generalizing t c with
  | nil => rfl
  | cons x xs ih =>
    simp only [List.foldl_cons, List.length_cons, Function.iterate_succ_apply]
    exact ih _ _

/-- `_declare_variable` in terms of `vecType` and its constructor text. -/
theorem declare_variable_eq (cfg : Config) (name : String) (dims : List String) :
    _declare_variable cfg name dims
      = vecType (_get_std cfg) dims.length ++ " " ++ name
          ++ (dims.reverse.foldl (fun (tc : String × String) dim =>
              (_get_std cfg ++ "vector<" ++ tc.1 ++ ">",
               "(" ++ dim ++ ", " ++ tc.1 ++ "(" ++ tc.2 ++ "))")) ("int", "")).2 ++ ";" := by
  simp only [_declare_variable]
  rw [declFold_fst, List.length_reverse, ← vecType_eq_iterate]

/-- The `_get_std` qualifier is one of two strings. -/
theorem get_std_cases (cfg : Config) : _get_std cfg = "" ∨ _get_std cfg = "std::" := by
  unfold _get_std
  cases h : cfg.using_namespace_std with
  | none => exact Or.inl rfl
  | some b => cases b
              · exact Or.inr rfl
              · exact Or.inl rfl

/-- The first character of a nested container type. -/
theorem vecType_head (std : String) (hstd : std = "" ∨ std = "std::") (d : Nat) :
    (vecType std d).data.head? = some 'i' ∨ (vecType std d).data.head? = some 'v' ∨
    (vecType std d).data.head? = some 's' := by
  cases d with
  | zero => exact Or.inl rfl
  | succ n =>
    rcases hstd with h | h <;> subst h
    · exact Or.inr (Or.inl rfl)
    · exact Or.inr (Or.inr rfl)

/-- A declaration line begins with the first character of its type. -/
theorem decl_head (cfg : Config) (name : String) (dims : List String) :
    (_declare_variable cfg name dims).data.head?
      = (vecType (_get_std cfg) dims.length).data.head? := by
  rw [declare_variable_eq]
  rcases vecType_head (_get_std cfg) (get_std_cases cfg) dims.length with h | h | h <;>
    simp [List.head?_append, h]

/-- A declaration line does not start with the closing marker. -/
theorem decl_not_close (cfg : Config) (name : String) (dims : List String) :
    pyStartsWith (_declare_variable cfg name dims) "\x7d" = false := by
  have hh := decl_head cfg name dims
  rcases vecType_head (_get_std cfg) (get_std_cases cfg) dims.length with h | h | h
  · exact pyStartsWith_false_of_head _ 'i' (by decide) (hh.trans h)
  · exact pyStartsWith_false_of_head _ 'v' (by decide) (hh.trans h)
  · exact pyStartsWith_false_of_head _ 's' (by decide) (hh.trans h)

/-- A declaration line ends in `;`. -/
theorem decl_getLast (cfg : Config) (name : String) (dims : List String) :
    (_declare_variable cfg name dims).data.getLast? = some ';' := by
  simp only [_declare_variable]
  exact getLast_data_append _ ";" ';' rfl

/-- A declaration line does not end with the opening marker. -/
theorem decl_not_open (cfg : Config) (name : String) (dims : List String) :
    pyEndsWith (_declare_variable cfg name dims) "\x7b" = false :=
  pyEndsWith_false_of_getLast _ ';' (by decide) (decl_getLast cfg name dims)

/-- A read line does not start with the closing marker. -/
theorem readLine_not_close (name : String) (idx : List String) :
    pyStartsWith (readLine name idx) "\x7d" = false :=
  pyStartsWith_false_of_head _ 's' (by decide) rfl

/-- A read line ends in `;`. -/
theorem readLine_getLast (name : String) (idx : List String) :
    (readLine name idx).data.getLast? = some ';' := by
  rw [readLine, String.data_append, List.getLast?_append]
  rfl

/-- A read line does not end with the opening marker. -/
theorem readLine_not_open (name : String) (idx : List String) :
    pyEndsWith (readLine name idx) "\x7b" = false :=
  pyEndsWith_false_of_getLast _ ';' (by decide) (readLine_getLast name idx)

/-- Inversion of the `LoopNode` arm of `_read_input_dfs`. -/
theorem dfs_loop_inv {cfg : Config} {dims : String → List String}
    {name size : String} {body : FormatNode} {declared lines declared' : List String}
    (h : _read_input_dfs cfg dims (.loop name size body) declared = .ok (lines, declared')) :
    ∃ header bodyLines, _declare_loop cfg name size = .ok header ∧
      _read_input_dfs cfg dims body declared = .ok (bodyLines, declared') ∧
      lines = (header ++ " \x7b") :: bodyLines ++ ["\x7d"] := by
  rw [_read_input_dfs] at h
  cases hd : _declare_loop cfg name size with
  | error e => rw [hd] at h; exact absurd h (by simp [Bind.bind, Except.bind])
  | ok header =>
    rw [hd] at h
    cases hb : _read_input_dfs cfg dims body declared with
    | error e => rw [hb] at h; exact absurd h (by simp [Bind.bind, Except.bind])
    | ok p =>
      obtain ⟨bodyLines, d₁⟩ := p
      rw [hb] at h
      simp only [Bind.bind, Except.bind, Except.ok.injEq, Prod.mk.injEq] at h
      obtain ⟨h₁, h₂⟩ := h
      exact ⟨header, bodyLines, rfl, by rw [← h₂], h₁.symm⟩

/-- Inversion of the cons case of `readInputDfsList`. -/
theorem dfs_list_cons_inv {cfg : Config} {dims : String → List String}
    {n : FormatNode} {rest : List FormatNode} {declared lines declared' : List String}
    (h : readInputDfsList cfg dims (n :: rest) declared = .ok (lines, declared')) :
    ∃ l₁ d₁ l₂, _read_input_dfs cfg dims n declared = .ok (l₁, d₁) ∧
      readInputDfsList cfg dims rest d₁ = .ok (l₂, declared') ∧
      lines = l₁ ++ l₂ := by
  rw [readInputDfsList] at h
  cases h₁ : _read_input_dfs cfg dims n declared with
  | error e => rw [h₁] at h; exact absurd h (by simp [Bind.bind, Except.bind])
  | ok p =>
    obtain ⟨l₁, d₁⟩ := p
    rw [h₁] at h
    simp only [Bind.bind, Except.bind] at h
    cases h₂ : readInputDfsList cfg dims rest d₁ with
    | error e => rw [h₂] at h; exact absurd h (by simp [Bind.bind, Except.bind])
    | ok q =>
      obtain ⟨l₂, d₂⟩ := q
      rw [h₂] at h
      simp only [Bind.bind, Except.bind, Except.ok.injEq, Prod.mk.injEq] at h
      obtain ⟨h₃, h₄⟩ := h
      exact ⟨l₁, d₁, l₂, rfl, by rw [h₂, h₄], h₃.symm⟩

/-- The indenter's counter after a list of lines: the counter-component
of `indentLines`' recursion (decrement before the line on a closing
marker, increment after it on an opening marker). -/
def nestFinal : List String → Int → Int
  | [], c => c
  | line :: rest, c =>
    let c' := if pyStartsWith line "\x7d" then c - 1 else c
    nestFinal rest (if pyEndsWith line "\x7b" then c' + 1 else c')

/-- Whether the indenter's counter stays non-negative at every line of
the pass (checking the value used to prefix each line). -/
def nestOkB : List String → Int → Bool
  | [], _ => true
  | line :: rest, c =>
    let c' := if pyStartsWith line "\x7d" then c - 1 else c
    decide (0 ≤ c') && nestOkB rest (if pyEndsWith line "\x7b" then c' + 1 else c')

/-- `nestFinal` composes over append. -/
theorem nestFinal_append (l₁ l₂ : List String) (c : Int) :
    nestFinal (l₁ ++ l₂) c = nestFinal l₂ (nestFinal l₁ c) := by
  induction l₁ generalizing c with
  | nil => rfl
  | cons x xs ih =>
    simp only [List.cons_append, nestFinal]
    exact ih _

/-- `nestOkB` composes over append. -/
theorem nestOkB_append (l₁ l₂ : List String) (c : Int) :
    nestOkB (l₁ ++ l₂) c = (nestOkB l₁ c && nestOkB l₂ (nestFinal l₁ c)) := by
  induction l₁ generalizing c with
  | nil => simp [nestOkB, nestFinal]
  | cons x xs ih =>
    simp only [List.cons_append, nestOkB, nestFinal, List.append_eq]
    rw [ih, Bool.and_assoc]

/-- Loop headers produced by the configuration never begin with the
closing marker (true of the built-in counted loop and of any macro token
or hook result not starting with `}`). -/
def RepOk (cfg : Config) : Prop :=
  ∀ var size h, _declare_loop cfg var size = .ok h → pyStartsWith (h ++ " \x7b") "\x7d" = false

/-- A line that neither starts with `}` nor ends with `{` leaves the
counter unchanged. -/
theorem nestFinal_neutral (line : String) (rest : List String) (c : Int)
    (h₁ : pyStartsWith line "\x7d" = false) (h₂ : pyEndsWith line "\x7b" = false) :
    nestFinal (line :: rest) c = nestFinal rest c := by
  simp [nestFinal, h₁, h₂]

/-- A neutral line keeps the pass valid when the counter is the same. -/
theorem nestOkB_neutral (line : String) (rest : List String) (c : Int)
    (h₁ : pyStartsWith line "\x7d" = false) (h₂ : pyEndsWith line "\x7b" = false) :
    nestOkB (line :: rest) c = (decide (0 ≤ c) && nestOkB rest c) := by
  simp [nestOkB, h₁, h₂]

/-- The default configuration's loop headers never begin with the closing
marker. -/
theorem repOk_default : RepOk cfgDefault := by
  intro var size h hd
  simp only [_declare_loop, cfgDefault, Except.ok.injEq] at hd
  subst hd
  exact pyStartsWith_false_of_head _ 'f' (by decide) rfl

mutual
/-- Lines yielded by `_read_input_dfs` leave the indenter's counter where
it started, keep it non-negative throughout when it starts non-negative,
and contain as many opening-marker lines as closing-marker lines. -/
theorem nest_balance_node (cfg : Config) (dims : String → List String) (hrep : RepOk cfg)
    (node : FormatNode) (declared lines declared' : List String)
    (h : _read_input_dfs cfg dims node declared = .ok (lines, declared')) :
    (∀ c : Int, nestFinal lines c = c) ∧
    (∀ c : Int, 0 ≤ c → nestOkB lines c = true) ∧
    lines.countP (fun l => pyEndsWith l "\x7b") = lines.countP (fun l => pyStartsWith l "\x7d") := by
  cases node with
  | item name indices =>
    rw [_read_input_dfs] at h
    by_cases hmem : name ∈ declared
    · rw [if_pos hmem] at h
      simp only [Except.ok.injEq, Prod.mk.injEq] at h
      obtain ⟨h₁, _⟩ := h
      subst h₁
      refine ⟨fun c => ?_, fun c hc => ?_, ?_⟩
      · rw [nestFinal_neutral _ _ _ (readLine_not_close _ _) (readLine_not_open _ _)]
        rfl
      · rw [nestOkB_neutral _ _ _ (readLine_not_close _ _) (readLine_not_open _ _)]
        simp [nestOkB, hc]
      · simp [List.countP_cons, readLine_not_close, readLine_not_open]
    · rw [if_neg hmem] at h
      simp only [Except.ok.injEq, Prod.mk.injEq] at h
      obtain ⟨h₁, _⟩ := h
      subst h₁
      refine ⟨fun c => ?_, fun c hc => ?_, ?_⟩
      · rw [nestFinal_neutral _ _ _ (decl_not_close _ _ _) (decl_not_open _ _ _),
          nestFinal_neutral _ _ _ (readLine_not_close _ _) (readLine_not_open _ _)]
        rfl
      · rw [nestOkB_neutral _ _ _ (decl_not_close _ _ _) (decl_not_open _ _ _),
          nestOkB_neutral _ _ _ (readLine_not_close _ _) (readLine_not_open _ _)]
        simp [nestOkB, hc]
      · simp [List.countP_cons, readLine_not_close, readLine_not_open,
          decl_not_close, decl_not_open]
  | newline =>
    rw [_read_input_dfs] at h
    simp only [Except.ok.injEq, Prod.mk.injEq] at h
    obtain ⟨h₁, _⟩ := h
    subst h₁
    exact ⟨fun c => rfl, fun c hc => rfl, rfl⟩
  | seq items =>
    rw [_read_input_dfs] at h
    exact nest_balance_list cfg dims hrep items declared lines declared' h
  | loop name size body =>
    obtain ⟨header, bodyLines, hd, hb, hl⟩ := dfs_loop_inv h
    subst hl
    obtain ⟨ihF, ihOk, ihCnt⟩ := nest_balance_node cfg dims hrep body declared bodyLines declared' hb
    have hnc : pyStartsWith (header ++ " \x7b") "\x7d" = false := hrep name size header hd
    have hno : pyEndsWith (header ++ " \x7b") "\x7b" = true := header_open header
    have hcs : pyStartsWith ("\x7d" : String) "\x7d" = true := by decide
    have hco : pyEndsWith ("\x7d" : String) "\x7b" = false := by decide
    refine ⟨fun c => ?_, fun c hc => ?_, ?_⟩
    · simp only [nestFinal, hnc, hno, Bool.false_eq_true, if_false, if_true, List.append_eq]
      rw [nestFinal_append, ihF]
      simp only [nestFinal, hcs, hco, Bool.false_eq_true, if_false, if_true]
      omega
    · simp only [nestOkB, hnc, hno, Bool.false_eq_true, if_false, if_true, List.append_eq]
      rw [nestOkB_append, ihF, ihOk _ (by omega)]
      simp only [nestOkB, hcs, hco, Bool.false_eq_true, if_false, if_true]
      have h₂ : (0 : Int) ≤ c + 1 - 1 := by omega
      simp [hc, h₂]
    · simp [List.countP_cons, List.countP_append, ihCnt, hnc, hno, hcs, hco]
termination_by sizeOf node

/-- The list form of `nest_balance_node`, over `readInputDfsList`. -/
theorem nest_balance_list (cfg : Config) (dims : String → List String) (hrep : RepOk cfg)
    (nodes : List FormatNode) (declared lines declared' : List String)
    (h : readInputDfsList cfg dims nodes declared = .ok (lines, declared')) :
    (∀ c : Int, nestFinal lines c = c) ∧
    (∀ c : Int, 0 ≤ c → nestOkB lines c = true) ∧
    lines.countP (fun l => pyEndsWith l "\x7b") = lines.countP (fun l => pyStartsWith l "\x7d") := by
  cases nodes with
  | nil =>
    rw [readInputDfsList] at h
    simp only [Except.ok.injEq, Prod.mk.injEq] at h
    obtain ⟨h₁, _⟩ := h
    subst h₁
    exact ⟨fun c => rfl, fun c hc => rfl, rfl⟩
  | cons n rest =>
    obtain ⟨l₁, d₁, l₂, h₁, h₂, hl⟩ := dfs_list_cons_inv h
    subst hl
    obtain ⟨ihF₁, ihOk₁, ihCnt₁⟩ := nest_balance_node cfg dims hrep n declared l₁ d₁ h₁
    obtain ⟨ihF₂, ihOk₂, ihCnt₂⟩ := nest_balance_list cfg dims hrep rest d₁ l₂ declared' h₂
    refine ⟨fun c => ?_, fun c hc => ?_, ?_⟩
    · rw [nestFinal_append, ihF₁, ihF₂]
    · rw [nestOkB_append, ihF₁, ihOk₁ _ hc, ihOk₂ _ hc]
      rfl
    · simp [List.countP_append, ihCnt₁, ihCnt₂]
termination_by sizeOf nodes
end

/-- C8: for every line sequence a successful traversal produces (under a
configuration whose loop headers do not begin with the closing marker),
the indenter's counter never goes below zero when started non-negative,
it returns to its starting value after the sequence — in particular after
the lines of any `Loop` subtree — and opening-marker lines and
closing-marker lines are equinumerous. -/
theorem C8_indentation_balance (cfg : Config) (dims : String → List String)
    (node : FormatNode) (declared lines declared' : List String) (c : Int)
    (hrep : RepOk cfg)
    (hrun : _read_input_dfs cfg dims node declared = .ok (lines, declared'))
    (hc : 0 ≤ c) :
    nestOkB lines c = true ∧ nestFinal lines c = c ∧
    lines.countP (fun l => pyEndsWith l "\x7b") = lines.countP (fun l => pyStartsWith l "\x7d") := by
  obtain ⟨hF, hOk, hCnt⟩ := nest_balance_node cfg dims hrep node declared lines declared' hrun
  exact ⟨hOk c hc, hF c, hCnt⟩

/-- Witness for C8: the default configuration on a one-loop tree, started
at the indenter's actual initial counter 1. -/
theorem C8_indentation_balance_witness :
    nestOkB ["for (int i = 0; i < n; ++i) \x7b", "vector<int> a(n, int());",
      "scanf(\"%d\", &a[i]);", "\x7d"] 1 = true ∧
    nestFinal ["for (int i = 0; i < n; ++i) \x7b", "vector<int> a(n, int());",
      "scanf(\"%d\", &a[i]);", "\x7d"] 1 = 1 ∧
    (["for (int i = 0; i < n; ++i) \x7b", "vector<int> a(n, int());",
      "scanf(\"%d\", &a[i]);", "\x7d"].countP (fun l => pyEndsWith l "\x7b")
      = ["for (int i = 0; i < n; ++i) \x7b", "vector<int> a(n, int());",
          "scanf(\"%d\", &a[i]);", "\x7d"].countP (fun l => pyStartsWith l "\x7d")) :=
  C8_indentation_balance cfgDefault (fun _ => ["n"])
    (.loop "i" "n" (.item "a" ["i"])) [] _ ["a"] 1
    repOk_default rfl (by decide)

/-- The first two characters of a nested container type. -/
theorem vecType_take2 (std : String) (hstd : std = "" ∨ std = "std::") (d : Nat) :
    (vecType std d).data.take 2 = ['i', 'n'] ∨ (vecType std d).data.take 2 = ['v', 'e'] ∨
    (vecType std d).data.take 2 = ['s', 't'] := by
  cases d with
  | zero => exact Or.inl rfl
  | succ n =>
    rcases hstd with h | h <;> subst h
    · exact Or.inr (Or.inl rfl)
    · exact Or.inr (Or.inr rfl)

/-- A nested container type has at least two characters. -/
theorem vecType_len2 (std : String) (hstd : std = "" ∨ std = "std::") (d : Nat) :
    2 ≤ (vecType std d).data.length := by
  rcases vecType_take2 std hstd d with h | h | h <;>
    · have := congrArg List.length h
      rw [List.length_take] at this
      simp at this
      exact this

/-- The first two characters of a declaration line are those of its
type. -/
theorem decl_take2 (cfg : Config) (name : String) (dims : List String) :
    (_declare_variable cfg name dims).data.take 2 = ['i', 'n'] ∨
    (_declare_variable cfg name dims).data.take 2 = ['v', 'e'] ∨
    (_declare_variable cfg name dims).data.take 2 = ['s', 't'] := by
  rw [declare_variable_eq]
  simp only [String.data_append, List.append_assoc]
  rw [List.take_append_of_le_length (vecType_len2 _ (get_std_cases cfg) _)]
  exact vecType_take2 _ (get_std_cases cfg) _

/-- The first two characters of a read line. -/
theorem readLine_take2 (name : String) (idx : List String) :
    (readLine name idx).data.take 2 = ['s', 'c'] := rfl

/-- A declaration line is never equal to a read line. -/
theorem decl_ne_readLine (cfg : Config) (n₁ : String) (dims₁ : List String)
    (n₂ : String) (idx₂ : List String) :
    _declare_variable cfg n₁ dims₁ ≠ readLine n₂ idx₂ := by
  intro h
  have ht := congrArg (fun s => s.data.take 2) h
  simp only at ht
  rw [readLine_take2] at ht
  rcases decl_take2 cfg n₁ dims₁ with h2 | h2 | h2 <;> rw [h2] at ht <;>
    exact absurd ht (by decide)

/-- A declaration line is never equal to a loop-header line. -/
theorem decl_ne_header (cfg : Config) (name : String) (dims : List String) (hstr : String) :
    _declare_variable cfg name dims ≠ hstr ++ " \x7b" := by
  intro h
  have hgl := congrArg (fun s => s.data.getLast?) h
  simp only at hgl
  rw [decl_getLast, String.data_append, List.getLast?_append] at hgl
  exact absurd (Option.some.inj hgl) (by decide)

/-- A declaration line is never equal to the closing line. -/
theorem decl_ne_close (cfg : Config) (name : String) (dims : List String) :
    _declare_variable cfg name dims ≠ "\x7d" := by
  intro h
  have hgl := congrArg (fun s => s.data.getLast?) h
  simp only at hgl
  rw [decl_getLast] at hgl
  exact absurd (Option.some.inj hgl) (by decide)

/-- Scalar declarations determine their variable name. -/
theorem declare_scalar_inj (cfg : Config) (x n : String)
    (h : _declare_variable cfg n [] = _declare_variable cfg x []) : n = x := by
  simp only [_declare_variable, List.reverse_nil, List.foldl_nil] at h
  have h2 := congrArg String.data h
  simp only [String.data_append, List.append_assoc] at h2
  have h3 := List.append_cancel_left (List.append_cancel_left h2)
  have h4 := List.append_cancel_right h3
  exact String.ext h4

mutual
/-- The index list carried by the first `Item` occurrence of `x` in
traversal order, if any. -/
def firstIndices (x : String) : FormatNode → Option (List String)
  | .item name indices => if name = x then some indices else Option.none
  | .newline => Option.none
  | .seq items => firstIndicesList x items
  | .loop _ _ body => firstIndices x body

/-- `firstIndices` over the children of a `Sequence`. -/
def firstIndicesList (x : String) : List FormatNode → Option (List String)
  | [] => Option.none
  | n :: rest =>
    match firstIndices x n with
    | some idxs => some idxs
    | Option.none => firstIndicesList x rest
end

mutual
/-- Declare-once invariant of the traversal: the declaration line of `x`
appears in the yielded lines iff `x` has an `Item` occurrence and was not
already declared, and then exactly once, immediately before the read of
its first occurrence. -/
theorem declare_once_node (cfg : Config) (dims : String → List String) (x : String)
    (hinj : ∀ n, _declare_variable cfg n (dims n) = _declare_variable cfg x (dims x) → n = x)
    (node : FormatNode) (declared lines declared' : List String)
    (h : _read_input_dfs cfg dims node declared = .ok (lines, declared')) :
    (∀ y, y ∈ declared → y ∈ declared') ∧
    (x ∈ declared' ↔ x ∈ declared ∨ (firstIndices x node).isSome) ∧
    ((x ∈ declared ∨ firstIndices x node = Option.none) →
      _declare_variable cfg x (dims x) ∉ lines) ∧
    (∀ idxs, x ∉ declared → firstIndices x node = some idxs →
      ∃ pre post, lines = pre ++ _declare_variable cfg x (dims x) :: readLine x idxs :: post ∧
        _declare_variable cfg x (dims x) ∉ pre ∧ _declare_variable cfg x (dims x) ∉ post) := by
  cases node with
  | item name indices =>
    rw [_read_input_dfs] at h
    by_cases hx : name = x
    · subst hx
      by_cases hmem : name ∈ declared
      · rw [if_pos hmem] at h
        simp only [Except.ok.injEq, Prod.mk.injEq] at h
        obtain ⟨h₁, h₂⟩ := h
        subst h₁; subst h₂
        refine ⟨fun y hy => hy, by simp [firstIndices, hmem], ?_, ?_⟩
        · intro _
          simp only [List.mem_singleton]
          exact decl_ne_readLine cfg name (dims name) name indices
        · intro idxs hnd _
          exact absurd hmem hnd
      · rw [if_neg hmem] at h
        simp only [Except.ok.injEq, Prod.mk.injEq] at h
        obtain ⟨h₁, h₂⟩ := h
        subst h₁; subst h₂
        refine ⟨fun y hy => List.mem_append.mpr (Or.inl hy), ?_, ?_, ?_⟩
        · simp [firstIndices, List.mem_append]
        · intro hcase
          rcases hcase with hc | hc
          · exact absurd hc hmem
          · rw [firstIndices] at hc; simp at hc
        · intro idxs hnd hfi
          rw [firstIndices] at hfi
          simp at hfi
          subst hfi
          exact ⟨[], [], rfl, List.not_mem_nil _, List.not_mem_nil _⟩
    · by_cases hmem : name ∈ declared
      · rw [if_pos hmem] at h
        simp only [Except.ok.injEq, Prod.mk.injEq] at h
        obtain ⟨h₁, h₂⟩ := h
        subst h₁; subst h₂
        refine ⟨fun y hy => hy, by simp [firstIndices, hx], ?_, ?_⟩
        · intro _
          simp only [List.mem_singleton]
          exact decl_ne_readLine cfg x (dims x) name indices
        · intro idxs hnd hfi
          rw [firstIndices, if_neg hx] at hfi
          exact absurd hfi (by simp)
      · rw [if_neg hmem] at h
        simp only [Except.ok.injEq, Prod.mk.injEq] at h
        obtain ⟨h₁, h₂⟩ := h
        subst h₁; subst h₂
        have hx' : ¬(x = name) := fun hh => hx hh.symm
        refine ⟨fun y hy => List.mem_append.mpr (Or.inl hy), ?_, ?_, ?_⟩
        · simp [firstIndices, hx, hx', List.mem_append]
        · intro _
          simp only [List.mem_cons]
          rintro (hD | hD | hD)
          · exact hx (hinj name hD.symm)
          · exact decl_ne_readLine cfg x (dims x) name indices hD
          · exact List.not_mem_nil _ hD
        · intro idxs hnd hfi
          rw [firstIndices, if_neg hx] at hfi
          exact absurd hfi (by simp)
  | newline =>
    rw [_read_input_dfs] at h
    simp only [Except.ok.injEq, Prod.mk.injEq] at h
    obtain ⟨h₁, h₂⟩ := h
    subst h₁; subst h₂
    refine ⟨fun y hy => hy, by simp [firstIndices], fun _ => List.not_mem_nil _, ?_⟩
    intro idxs _ hfi
    rw [firstIndices] at hfi
    exact absurd hfi (by simp)
  | seq items =>
    rw [_read_input_dfs] at h
    simp only [firstIndices]
    exact declare_once_list cfg dims x hinj items declared lines declared' h
  | loop name size body =>
    obtain ⟨header, bodyLines, hd, hb, hl⟩ := dfs_loop_inv h
    subst hl
    obtain ⟨ihMono, ihMem, ihNot, ihPos⟩ :=
      declare_once_node cfg dims x hinj body declared bodyLines declared' hb
    refine ⟨ihMono, by simpa [firstIndices] using ihMem, ?_, ?_⟩
    · intro hcase
      simp only [firstIndices] at hcase
      have hnb := ihNot hcase
      intro hmem
      rcases List.mem_cons.mp hmem with hD | hD
      · exact decl_ne_header cfg x (dims x) header hD
      · rcases List.mem_append.mp hD with hD' | hD'
        · exact hnb hD'
        · exact decl_ne_close cfg x (dims x) (List.mem_singleton.mp hD')
    · intro idxs hnd hfi
      simp only [firstIndices] at hfi
      obtain ⟨pre, post, heq, hpre, hpost⟩ := ihPos idxs hnd hfi
      subst heq
      refine ⟨(header ++ " \x7b") :: pre, post ++ ["\x7d"], ?_, ?_, ?_⟩
      · simp [List.append_assoc]
      · intro hmem
        rcases List.mem_cons.mp hmem with hD | hD
        · exact decl_ne_header cfg x (dims x) header hD
        · exact hpre hD
      · intro hmem
        rcases List.mem_append.mp hmem with hD | hD
        · exact hpost hD
        · exact decl_ne_close cfg x (dims x) (List.mem_singleton.mp hD)
termination_by sizeOf node

/-- The list form of `declare_once_node`, over `readInputDfsList`. -/
theorem declare_once_list (cfg : Config) (dims : String → List String) (x : String)
    (hinj : ∀ n, _declare_variable cfg n (dims n) = _declare_variable cfg x (dims x) → n = x)
    (nodes : List FormatNode) (declared lines declared' : List String)
    (h : readInputDfsList cfg dims nodes declared = .ok (lines, declared')) :
    (∀ y, y ∈ declared → y ∈ declared') ∧
    (x ∈ declared' ↔ x ∈ declared ∨ (firstIndicesList x nodes).isSome) ∧
    ((x ∈ declared ∨ firstIndicesList x nodes = Option.none) →
      _declare_variable cfg x (dims x) ∉ lines) ∧
    (∀ idxs, x ∉ declared → firstIndicesList x nodes = some idxs →
      ∃ pre post, lines = pre ++ _declare_variable cfg x (dims x) :: readLine x idxs :: post ∧
        _declare_variable cfg x (dims x) ∉ pre ∧ _declare_variable cfg x (dims x) ∉ post) := by
  cases nodes with
  | nil =>
    rw [readInputDfsList] at h
    simp only [Except.ok.injEq, Prod.mk.injEq] at h
    obtain ⟨h₁, h₂⟩ := h
    subst h₁; subst h₂
    refine ⟨fun y hy => hy, by simp [firstIndicesList], fun _ => List.not_mem_nil _, ?_⟩
    intro idxs _ hfi
    rw [firstIndicesList] at hfi
    exact absurd hfi (by simp)
  | cons n rest =>
    obtain ⟨l₁, d₁, l₂, h₁, h₂, hl⟩ := dfs_list_cons_inv h
    subst hl
    obtain ⟨m₁, mem₁, not₁, pos₁⟩ :=
      declare_once_node cfg dims x hinj n declared l₁ d₁ h₁
    obtain ⟨m₂, mem₂, not₂, pos₂⟩ :=
      declare_once_list cfg dims x hinj rest d₁ l₂ declared' h₂
    refine ⟨fun y hy => m₂ y (m₁ y hy), ?_, ?_, ?_⟩
    · rw [firstIndicesList]
      cases hfi : firstIndices x n with
      | some idxs =>
        simp only [mem₂, mem₁, hfi]
        simp
      | none =>
        simp only [mem₂, mem₁, hfi]
        simp [or_assoc]
    · intro hcase
      have hnot₁ : _declare_variable cfg x (dims x) ∉ l₁ := by
        cases hfi : firstIndices x n with
        | some idx₀ =>
          have hc : x ∈ declared := by
            simp only [firstIndicesList, hfi] at hcase
            rcases hcase with hc | hc
            · exact hc
            · exact absurd hc (by simp)
          exact not₁ (Or.inl hc)
        | none => exact not₁ (Or.inr hfi)
      have hxd : x ∈ declared ∨ firstIndicesList x rest = Option.none := by
        cases hfi : firstIndices x n with
        | some idx₀ =>
          simp only [firstIndicesList, hfi] at hcase
          rcases hcase with hc | hc
          · exact Or.inl hc
          · exact absurd hc (by simp)
        | none =>
          simp only [firstIndicesList, hfi] at hcase
          exact hcase
      have hnot₂ : _declare_variable cfg x (dims x) ∉ l₂ := by
        rcases hxd with hc | hc
        · exact not₂ (Or.inl (m₁ x hc))
        · exact not₂ (Or.inr hc)
      intro hmem
      rcases List.mem_append.mp hmem with hD | hD
      · exact hnot₁ hD
      · exact hnot₂ hD
    · intro idxs hnd hfi
      rw [firstIndicesList] at hfi
      cases hfin : firstIndices x n with
      | some idx₀ =>
        simp only [hfin, Option.some.injEq] at hfi
        subst hfi
        obtain ⟨pre, post, heq, hpre, hpost⟩ := pos₁ idx₀ hnd hfin
        subst heq
        have hxd₁ : x ∈ d₁ := mem₁.mpr (Or.inr (by simp [hfin]))
        have hnot₂ : _declare_variable cfg x (dims x) ∉ l₂ := not₂ (Or.inl hxd₁)
        refine ⟨pre, post ++ l₂, ?_, hpre, ?_⟩
        · simp [List.append_assoc]
        · intro hm
          rcases List.mem_append.mp hm with hm | hm
          · exact hpost hm
          · exact hnot₂ hm
      | none =>
        simp only [hfin] at hfi
        have hnd₁ : x ∉ d₁ := by
          intro hc
          rcases mem₁.mp hc with hc' | hc'
          · exact hnd hc'
          · rw [hfin] at hc'; simp at hc'
        obtain ⟨pre, post, heq, hpre, hpost⟩ := pos₂ idxs hnd₁ hfi
        subst heq
        have hnot₁ : _declare_variable cfg x (dims x) ∉ l₁ := not₁ (Or.inr hfin)
        refine ⟨l₁ ++ pre, post, ?_, ?_, hpost⟩
        · simp [List.append_assoc]
        · intro hm
          rcases List.mem_append.mp hm with hm | hm
          · exact hnot₁ hm
          · exact hpre hm
termination_by sizeOf nodes
end

/-- C5: for every variable with an `Item` occurrence in the tree (whose
declaration text identifies it among the tree's declarations), the
traversal's line sequence contains its declaration exactly once, emitted
immediately before the read of its first `Item` occurrence in traversal
order. -/
theorem C5_declare_once (cfg : Config) (dims : String → List String) (node : FormatNode)
    (x : String) (idxs : List String) (lines declared' : List String)
    (hinj : ∀ n, _declare_variable cfg n (dims n) = _declare_variable cfg x (dims x) → n = x)
    (hfirst : firstIndices x node = some idxs)
    (hrun : _read_input_dfs cfg dims node [] = .ok (lines, declared')) :
    List.count (_declare_variable cfg x (dims x)) lines = 1 ∧
    ∃ pre post, lines = pre ++ _declare_variable cfg x (dims x) :: readLine x idxs :: post ∧
      _declare_variable cfg x (dims x) ∉ pre ∧ _declare_variable cfg x (dims x) ∉ post := by
  obtain ⟨-, -, -, hpos⟩ := declare_once_node cfg dims x hinj node [] lines declared' hrun
  obtain ⟨pre, post, heq, hpre, hpost⟩ := hpos idxs (List.not_mem_nil x) hfirst
  subst heq
  refine ⟨?_, pre, post, rfl, hpre, hpost⟩
  rw [List.count_append, List.count_eq_zero.mpr hpre, List.count_cons_self,
    List.count_cons_of_ne (decl_ne_readLine cfg x (dims x) x idxs),
    List.count_eq_zero.mpr hpost]

/-- Witness for C5: the scalar `n` read twice is declared exactly once. -/
theorem C5_declare_once_witness :
    List.count "int n;" ["int n;", "scanf(\"%d\", &n);", "scanf(\"%d\", &n);"] = 1 :=
  (C5_declare_once cfgDefault (fun _ => []) (.seq [.item "n" [], .item "n" []]) "n" []
    ["int n;", "scanf(\"%d\", &n);", "scanf(\"%d\", &n);"] ["n"]
    (fun n h => declare_scalar_inj cfgDefault "n" n h) rfl rfl).1
